import Mathlib

/-!
Verification of the batch-gateway repository's worker pool, error
classification, batch API validation and shutdown handling, embedded
shallowly from the Go sources.
-/

namespace BatchGateway

/-! ## Worker pool (internal worker package)

The Go `WorkerPool` holds a buffered channel `workerIds chan int` and a
`sync.WaitGroup`.  We model the channel buffer as a FIFO list (front of the
list = next value received) and the wait-group counter as a natural number.
-/

/-- State of the Go `WorkerPool` struct: the buffered channel `workerIds`
modelled as a FIFO list, and the `sync.WaitGroup` counter `wg`. -/
structure WorkerPool where
  workerIds : List Nat
  wg : Nat
  deriving Repr, DecidableEq

/-- `NewWorkerPool(maxWorkers)`: fills the channel with ids `1..maxWorkers`
in order (`for i := 1; i <= maxWorkers; i++ { ids <- i }`). -/
def NewWorkerPool (maxWorkers : Nat) : WorkerPool :=
  { workerIds := List.range' 1 maxWorkers, wg := 0 }

/-- `TryAcquire()`: a `select` with a `default` branch — if the channel has a
value, receive it, `wg.Add(1)` and return `(id, true)`; otherwise return
`(0, false)` immediately. Returns the result pair and the updated pool. -/
def TryAcquire (wp : WorkerPool) : (Nat × Bool) × WorkerPool :=
  match wp.workerIds with
  | id :: rest => ((id, true), { workerIds := rest, wg := wp.wg + 1 })
  | [] => ((0, false), wp)

/-- `Release(id)`: sends `id` back on the channel and calls `wg.Done()`. -/
def Release (wp : WorkerPool) (id : Nat) : WorkerPool :=
  { workerIds := wp.workerIds ++ [id], wg := wp.wg - 1 }

/-- `WaitAll()` calls `wg.Wait()`, which returns precisely when the
wait-group counter is zero; this predicate marks the states in which
`WaitAll` can return (in every other state it blocks). -/
def WaitAllUnblocked (wp : WorkerPool) : Bool :=
  wp.wg == 0

/-! ### Interleavings of pool operations

Client calls are modelled as a sequence of events applied to the pool
together with a ghost list `held` of ids acquired and not yet released. -/

/-- One client call on the pool. -/
inductive Event where
  | tryAcquire : Event
  | release (id : Nat) : Event
  deriving Repr, DecidableEq

/-- Pool state together with the ghost list of currently held slot ids. -/
structure PoolState where
  pool : WorkerPool
  held : List Nat
  deriving Repr, DecidableEq

/-- The state right after `NewWorkerPool N`: no slot held yet. -/
def initState (N : Nat) : PoolState :=
  { pool := NewWorkerPool N, held := [] }

/-- Effect of one event on the pool, tracking held ids. -/
def step (s : PoolState) : Event → PoolState
  | .tryAcquire =>
    match TryAcquire s.pool with
    | ((id, true), p) => { pool := p, held := id :: s.held }
    | ((_, false), p) => { pool := p, held := s.held }
  | .release id => { pool := Release s.pool id, held := s.held.erase id }

/-- Run a sequence of events from a state. -/
def run (s : PoolState) : List Event → PoolState
  | [] => s
  | e :: es => run (step s e) es

/-- A trace is well formed from `s` when every `release id` releases an id
that was acquired earlier and is still held at that point. -/
def wfFrom (s : PoolState) : List Event → Bool
  | [] => true
  | .tryAcquire :: es => wfFrom (step s .tryAcquire) es
  | .release id :: es => s.held.contains id && wfFrom (step s (.release id)) es

/-- The pool invariant: the free ids and the held ids together are a
permutation of `1..N`, and the wait-group counter counts the held slots. -/
def Inv (N : Nat) (s : PoolState) : Prop :=
  (s.pool.workerIds ++ s.held).Perm (List.range' 1 N) ∧
  s.pool.wg = s.held.length

theorem inv_init (N : Nat) : Inv N (initState N) := by
  constructor
  · simp [initState, NewWorkerPool]
  · simp [initState, NewWorkerPool]

theorem inv_step_tryAcquire {N : Nat} {s : PoolState} (h : Inv N s) :
    Inv N (step s .tryAcquire) := by
  obtain ⟨hperm, hwg⟩ := h
  cases hfree : s.pool.workerIds with
  | nil =>
    constructor
    · have h0 : (s.pool.workerIds ++ s.held).Perm (List.range' 1 N) := hperm
      rw [hfree] at h0
      simpa [step, TryAcquire, hfree] using h0
    · simpa [step, TryAcquire, hfree] using hwg
  | cons id rest =>
    constructor
    · have h1 : (rest ++ id :: s.held).Perm ((id :: rest) ++ s.held) :=
        List.perm_middle.trans (List.Perm.refl _)
      have h2 : ((id :: rest) ++ s.held).Perm (List.range' 1 N) := hfree ▸ hperm
      simpa [step, TryAcquire, hfree] using h1.trans h2
    · simp [step, TryAcquire, hfree, hwg]

theorem inv_step_release {N : Nat} {s : PoolState} {id : Nat} (h : Inv N s)
    (hid : id ∈ s.held) : Inv N (step s (.release id)) := by
  obtain ⟨hperm, hwg⟩ := h
  constructor
  · have h1 : (s.held).Perm (id :: s.held.erase id) := List.perm_cons_erase hid
    have h2 : (s.pool.workerIds ++ [id] ++ s.held.erase id).Perm
        (s.pool.workerIds ++ s.held) := by
      have : (s.pool.workerIds ++ (id :: s.held.erase id)).Perm
          (s.pool.workerIds ++ s.held) := List.Perm.append_left _ h1.symm
      simpa [List.append_assoc] using this
    simpa [step, Release] using h2.trans hperm
  · have hpos : 0 < s.held.length := List.length_pos.mpr (by
      intro hnil; rw [hnil] at hid; exact List.not_mem_nil id hid)
    have : (s.held.erase id).length = s.held.length - 1 :=
      List.length_erase_of_mem hid
    simp [step, Release, hwg, this]

theorem run_inv {N : Nat} {s : PoolState} {es : List Event} (h : Inv N s)
    (hwf : wfFrom s es = true) : Inv N (run s es) := by
  induction es generalizing s with
  | nil => simpa [run] using h
  | cons e es ih =>
    cases e with
    | tryAcquire =>
      exact ih (inv_step_tryAcquire h) (by simpa [wfFrom] using hwf)
    | release id =>
      have hsplit : s.held.contains id = true ∧
          wfFrom (step s (.release id)) es = true := by
        simpa [wfFrom, Bool.and_eq_true] using hwf
      have hmem : id ∈ s.held := by
        simpa using hsplit.1
      exact ih (inv_step_release h hmem) hsplit.2

/-- A well-formed run from the initial pool state satisfies the invariant. -/
theorem inv_run_init {N : Nat} {es : List Event}
    (hwf : wfFrom (initState N) es = true) : Inv N (run (initState N) es) :=
  run_inv (inv_init N) hwf

/-- Free and held ids together number exactly `N`. -/
theorem Inv.free_held_length {N : Nat} {s : PoolState} (h : Inv N s) :
    s.pool.workerIds.length + s.held.length = N := by
  have hlen := h.1.length_eq
  simpa using hlen

/-- Free and held ids together carry no duplicate. -/
theorem Inv.nodup_append {N : Nat} {s : PoolState} (h : Inv N s) :
    (s.pool.workerIds ++ s.held).Nodup :=
  (List.nodup_range' 1 N).perm h.1.symm

/-- Every free or held id lies in `[1, N]`. -/
theorem Inv.mem_bounds {N : Nat} {s : PoolState} (h : Inv N s) {x : Nat}
    (hx : x ∈ s.pool.workerIds ++ s.held) : 1 ≤ x ∧ x ≤ N := by
  have hx2 : x ∈ List.range' 1 N := h.1.mem_iff.mp hx
  rcases List.mem_range'_1.mp hx2 with ⟨h1, h2⟩
  exact ⟨h1, by omega⟩

/-- C1: For every worker pool created with capacity `N ≥ 1` and every
interleaving of `TryAcquire` and `Release` calls in which each `Release`
matches a prior successful acquire still held, the number of slots
simultaneously held never exceeds `N`. -/
theorem capacity_never_exceeded (N : Nat) (hN : 1 ≤ N) (es : List Event)
    (hwf : wfFrom (initState N) es = true) :
    (run (initState N) es).held.length ≤ N := by
  have h := (inv_run_init hwf).free_held_length
  omega

theorem capacity_never_exceeded_witness :
    1 ≤ 1 ∧ wfFrom (initState 1) [Event.tryAcquire, Event.tryAcquire] = true ∧
    (run (initState 1) [Event.tryAcquire, Event.tryAcquire]).held.length ≤ 1 :=
  ⟨by decide, by decide,
    capacity_never_exceeded 1 (by decide) [Event.tryAcquire, Event.tryAcquire] (by decide)⟩

/-- C2: In every reachable pool state, `WaitAll` can return precisely when
every previously acquired slot has been released (the held set is empty);
it never unblocks earlier. -/
theorem waitAll_returns_iff_drained (N : Nat) (es : List Event)
    (hwf : wfFrom (initState N) es = true) :
    (WaitAllUnblocked (run (initState N) es).pool = true ↔
      (run (initState N) es).held = []) := by
  have hwg := (inv_run_init hwf).2
  constructor
  · intro h
    have : (run (initState N) es).pool.wg = 0 := by simpa [WaitAllUnblocked] using h
    have hlen : (run (initState N) es).held.length = 0 := by omega
    exact List.length_eq_zero.mp hlen
  · intro h
    simp [WaitAllUnblocked, hwg, h]

theorem waitAll_returns_iff_drained_witness :
    wfFrom (initState 1) [Event.tryAcquire] = true ∧
    (WaitAllUnblocked (run (initState 1) [Event.tryAcquire]).pool = true ↔
      (run (initState 1) [Event.tryAcquire]).held = []) :=
  ⟨by decide, waitAll_returns_iff_drained 1 [Event.tryAcquire] (by decide)⟩

/-- C3: `TryAcquire` is non-blocking: with no free slot it returns
`(0, false)` and leaves the pool unchanged; with a free slot it returns the
front id with `true` and removes exactly that one id from the free list. -/
theorem tryAcquire_nonblocking (wp : WorkerPool) :
    (wp.workerIds = [] → TryAcquire wp = ((0, false), wp)) ∧
    (∀ id rest, wp.workerIds = id :: rest →
      TryAcquire wp = ((id, true), { workerIds := rest, wg := wp.wg + 1 })) := by
  constructor
  · intro h
    simp [TryAcquire, h]
  · intro id rest h
    simp [TryAcquire, h]

theorem tryAcquire_nonblocking_witness :
    TryAcquire { workerIds := [], wg := 0 } = ((0, false), { workerIds := [], wg := 0 }) ∧
    TryAcquire { workerIds := [1, 2], wg := 0 } = ((1, true), { workerIds := [2], wg := 1 }) :=
  ⟨(tryAcquire_nonblocking { workerIds := [], wg := 0 }).1 rfl,
    (tryAcquire_nonblocking { workerIds := [1, 2], wg := 0 }).2 1 [2] rfl⟩

/-- C4: Acquire/Release is a bijection on slot ids: while a successfully
acquired id is still held in a reachable state, no `TryAcquire` can return
that id again; and immediately after `Release(id)` the id is back in the
free list, available for reissue. -/
theorem acquire_release_bijection (N : Nat) (es : List Event) (id : Nat)
    (hwf : wfFrom (initState N) es = true)
    (hid : id ∈ (run (initState N) es).held) :
    ((TryAcquire (run (initState N) es).pool).1.2 = true →
      (TryAcquire (run (initState N) es).pool).1.1 ≠ id) ∧
    id ∈ (Release (run (initState N) es).pool id).workerIds := by
  have hinv := inv_run_init hwf
  have hdisj := List.disjoint_of_nodup_append hinv.nodup_append
  constructor
  · intro hok heq
    cases hfree : (run (initState N) es).pool.workerIds with
    | nil => simp [TryAcquire, hfree] at hok
    | cons hd rest =>
      have hhd : hd ∈ (run (initState N) es).pool.workerIds := by
        rw [hfree]; exact List.mem_cons_self _ _
      have hval : (TryAcquire (run (initState N) es).pool).1.1 = hd := by
        simp [TryAcquire, hfree]
      rw [hval] at heq
      exact hdisj (heq ▸ hhd) hid
  · simp [Release]

theorem acquire_release_bijection_witness :
    wfFrom (initState 1) [Event.tryAcquire] = true ∧
    1 ∈ (run (initState 1) [Event.tryAcquire]).held ∧
    (((TryAcquire (run (initState 1) [Event.tryAcquire]).pool).1.2 = true →
      (TryAcquire (run (initState 1) [Event.tryAcquire]).pool).1.1 ≠ 1) ∧
    1 ∈ (Release (run (initState 1) [Event.tryAcquire]).pool 1).workerIds) :=
  ⟨by decide, by decide,
    acquire_release_bijection 1 [Event.tryAcquire] 1 (by decide) (by decide)⟩

/-- C6: `NewWorkerPool N` fills the free list with each id `1..N` exactly
once, and every id returned by a successful `TryAcquire` in a reachable
state lies in `[1, N]`. -/
theorem slot_ids_in_range (N : Nat) (es : List Event)
    (hwf : wfFrom (initState N) es = true) :
    (∀ k, (NewWorkerPool N).workerIds.count k = if 1 ≤ k ∧ k ≤ N then 1 else 0) ∧
    ((TryAcquire (run (initState N) es).pool).1.2 = true →
      1 ≤ (TryAcquire (run (initState N) es).pool).1.1 ∧
      (TryAcquire (run (initState N) es).pool).1.1 ≤ N) := by
  constructor
  · intro k
    show (List.range' 1 N).count k = _
    by_cases hk : 1 ≤ k ∧ k ≤ N
    · rw [if_pos hk]
      exact List.count_eq_one_of_mem (List.nodup_range' 1 N)
        (List.mem_range'_1.mpr ⟨hk.1, by omega⟩)
    · rw [if_neg hk]
      refine List.count_eq_zero.mpr ?_
      intro hmem
      rcases List.mem_range'_1.mp hmem with ⟨h1, h2⟩
      exact hk ⟨h1, by omega⟩
  · intro hok
    have hinv := inv_run_init hwf
    cases hfree : (run (initState N) es).pool.workerIds with
    | nil => simp [TryAcquire, hfree] at hok
    | cons hd rest =>
      have hhd : hd ∈ (run (initState N) es).pool.workerIds ++
          (run (initState N) es).held := by
        rw [hfree]; exact List.mem_append_left _ (List.mem_cons_self _ _)
      have hval : (TryAcquire (run (initState N) es).pool).1.1 = hd := by
        simp [TryAcquire, hfree]
      rw [hval]
      exact hinv.mem_bounds hhd

theorem slot_ids_in_range_witness :
    wfFrom (initState 2) [Event.tryAcquire] = true ∧
    ((∀ k, (NewWorkerPool 2).workerIds.count k = if 1 ≤ k ∧ k ≤ 2 then 1 else 0) ∧
    ((TryAcquire (run (initState 2) [Event.tryAcquire]).pool).1.2 = true →
      1 ≤ (TryAcquire (run (initState 2) [Event.tryAcquire]).pool).1.1 ∧
      (TryAcquire (run (initState 2) [Event.tryAcquire]).pool).1.1 ≤ 2)) :=
  ⟨by decide, slot_ids_in_range 2 [Event.tryAcquire] (by decide)⟩

/-! ## Error classification (internal/shared/batch/client_errors.go) -/

/-- Go `ErrorCategory string`. -/
abbrev ErrorCategory := String

def ErrCategoryRateLimit : ErrorCategory := "RATE_LIMIT"
def ErrCategoryServer : ErrorCategory := "SERVER_ERROR"
def ErrCategoryInvalidReq : ErrorCategory := "INVALID_REQ"
def ErrCategoryAuth : ErrorCategory := "AUTH_ERROR"
def ErrCategoryUnknown : ErrorCategory := "UNKNOWN"

/-- Go `InferenceError`; the wrapped `RawError error` is modelled by its
optional message text. -/
structure InferenceError where
  Category : ErrorCategory
  Message : String
  RawError : Option String
  deriving Repr, DecidableEq

/-- `IsRetryable`: `e.Category == ErrCategoryRateLimit || e.Category == ErrCategoryServer`. -/
def InferenceError.IsRetryable (e : InferenceError) : Bool :=
  e.Category == ErrCategoryRateLimit || e.Category == ErrCategoryServer

/-- C5: `IsRetryable` holds iff the category is RateLimit or ServerError;
InvalidRequest, AuthError and Unknown errors are never retryable. -/
theorem isRetryable_iff_rateLimit_or_server (e : InferenceError) :
    (e.IsRetryable = true ↔
      (e.Category = ErrCategoryRateLimit ∨ e.Category = ErrCategoryServer)) ∧
    ((e.Category = ErrCategoryInvalidReq ∨ e.Category = ErrCategoryAuth ∨
        e.Category = ErrCategoryUnknown) → e.IsRetryable = false) := by
  constructor
  · simp [InferenceError.IsRetryable]
  · rintro (h | h | h) <;>
      simp [InferenceError.IsRetryable, h, ErrCategoryRateLimit, ErrCategoryServer,
        ErrCategoryInvalidReq, ErrCategoryAuth, ErrCategoryUnknown]

theorem isRetryable_iff_rateLimit_or_server_witness :
    ({ Category := "RATE_LIMIT", Message := "", RawError := none } :
      InferenceError).IsRetryable = true ∧
    ({ Category := "UNKNOWN", Message := "", RawError := none } :
      InferenceError).IsRetryable = false :=
  ⟨(isRetryable_iff_rateLimit_or_server
      { Category := "RATE_LIMIT", Message := "", RawError := none }).1.mpr (Or.inl rfl),
    (isRetryable_iff_rateLimit_or_server
      { Category := "UNKNOWN", Message := "", RawError := none }).2 (Or.inr (Or.inr rfl))⟩

/-! ## Two-stage shutdown (internal/util/interrupt, ContextWithSignal)

The goroutine inside `ContextWithSignal` receives from the signal channel
twice: on the first signal it calls `cancel()` on the derived context, and
on the second it flushes logs and calls `os.Exit(1)`.  We model the
goroutine as a state machine over delivered signals. -/

/-- Observable effect of the `ContextWithSignal` goroutine: whether the
returned context has been cancelled and whether the process has exited. -/
structure SignalState where
  cancelled : Bool
  exited : Bool
  deriving Repr, DecidableEq

/-- Before any signal arrives: context live, process running. -/
def initSignal : SignalState :=
  { cancelled := false, exited := false }

/-- Deliver one OS signal (SIGINT/SIGTERM/interrupt) to the goroutine:
the first received signal cancels the context, the second calls
`os.Exit(1)`; after exit nothing more happens. -/
def handleSignal (s : SignalState) : SignalState :=
  if s.exited then s
  else if s.cancelled then { s with exited := true }
  else { s with cancelled := true }

/-- State of the handler after `n` signals have been delivered. -/
def runSignals : Nat → SignalState
  | 0 => initSignal
  | n + 1 => handleSignal (runSignals n)

theorem runSignals_eq (n : Nat) :
    runSignals n = { cancelled := decide (1 ≤ n), exited := decide (2 ≤ n) } := by
  induction n with
  | zero => rfl
  | succ n ih =>
    rw [runSignals, ih]
    rcases n with _ | _ | n <;> simp [handleSignal]

/-- C7: The first OS signal only cancels the returned context while the
process keeps running, and the process exits exactly when a second signal
has been delivered. -/
theorem two_stage_shutdown :
    runSignals 1 = { cancelled := true, exited := false } ∧
    ∀ n, ((runSignals n).exited = true ↔ 2 ≤ n) := by
  constructor
  · rfl
  · intro n
    rw [runSignals_eq]
    simp

theorem two_stage_shutdown_witness :
    runSignals 1 = { cancelled := true, exited := false } ∧
    ((runSignals 2).exited = true ↔ 2 ≤ 2) :=
  ⟨two_stage_shutdown.1, two_stage_shutdown.2 2⟩

/-! ## Processor configuration (internal/processor/config/config.go) -/

/-- Go `time.Duration`, a count of nanoseconds. -/
abbrev Duration := Int

/-- One second of Go `time.Duration`. -/
def timeSecond : Duration := 1000000000

/-- Go `BucketConfig`; the `float64` fields hold only exact decimal
literals in this code and are modelled as rationals. -/
structure BucketConfig where
  BucketStart : ℚ
  BucketFactor : ℚ
  BucketCount : Int
  deriving Repr, DecidableEq

/-- Go `ProcessorConfig` (the configuration the processor loads). -/
structure ProcessorConfig where
  TaskWaitTime : Duration
  NumWorkers : Int
  MaxJobConcurrency : Int
  PollInterval : Duration
  QueueTimeBucket : BucketConfig
  ProcessTimeBucket : BucketConfig
  Addr : String
  SSLCertFile : String
  SSLKeyFile : String
  deriving Repr, DecidableEq

/-- `NewConfig()`: the default configuration values. -/
def NewConfig : ProcessorConfig :=
  { PollInterval := 5 * timeSecond
    TaskWaitTime := 1 * timeSecond
    ProcessTimeBucket :=
      { BucketStart := 1 / 10, BucketFactor := 2, BucketCount := 15 }
    QueueTimeBucket :=
      { BucketStart := 1 / 10, BucketFactor := 2, BucketCount := 10 }
    MaxJobConcurrency := 10
    NumWorkers := 1
    Addr := ":9090"
    SSLCertFile := ""
    SSLKeyFile := "" }

/-- C8: In the default processor configuration the dequeue wait timeout
(`TaskWaitTime`, 1s) is strictly shorter than the poll cadence
(`PollInterval`, 5s). -/
theorem default_taskWaitTime_lt_pollInterval :
    NewConfig.TaskWaitTime < NewConfig.PollInterval ∧
    NewConfig.TaskWaitTime = 1 * timeSecond ∧
    NewConfig.PollInterval = 5 * timeSecond := by
  refine ⟨?_, rfl, rfl⟩
  simp [NewConfig, timeSecond]

/-! ## OpenAI batch API data structures (openai package) -/

/-- Go `Endpoint string`. -/
abbrev Endpoint := String

def EndpointResponses : Endpoint := "/v1/responses"
def EndpointChatCompletions : Endpoint := "/v1/chat/completions"
def EndpointEmbeddings : Endpoint := "/v1/embeddings"
def EndpointCompletions : Endpoint := "/v1/completions"
def EndpointModerations : Endpoint := "/v1/moderations"

/-- Go `BatchStatus string`. -/
abbrev BatchStatus := String

def BatchStatusValidating : BatchStatus := "validating"
def BatchStatusFailed : BatchStatus := "failed"
def BatchStatusInProgress : BatchStatus := "in_progress"
def BatchStatusFinalizing : BatchStatus := "finalizing"
def BatchStatusCompleted : BatchStatus := "completed"
def BatchStatusExpired : BatchStatus := "expired"
def BatchStatusCancelling : BatchStatus := "cancelling"
def BatchStatusCancelled : BatchStatus := "cancelled"

/-- `BatchStatus.IsFinal`: true for completed, failed, expired, cancelled. -/
def BatchStatus.IsFinal (s : BatchStatus) : Bool :=
  s == BatchStatusCompleted || s == BatchStatusFailed ||
  s == BatchStatusExpired || s == BatchStatusCancelled

/-- C10: `IsFinal` returns true exactly for the four terminal statuses, and
in particular cancelling, finalizing, validating and in_progress are not
final. -/
theorem isFinal_iff_terminal (s : BatchStatus) :
    (s.IsFinal = true ↔
      (s = BatchStatusCompleted ∨ s = BatchStatusFailed ∨
       s = BatchStatusExpired ∨ s = BatchStatusCancelled)) ∧
    BatchStatus.IsFinal BatchStatusCancelling = false ∧
    BatchStatus.IsFinal BatchStatusFinalizing = false ∧
    BatchStatus.IsFinal BatchStatusValidating = false ∧
    BatchStatus.IsFinal BatchStatusInProgress = false := by
  refine ⟨?_, by decide, by decide, by decide, by decide⟩
  simp [BatchStatus.IsFinal, or_assoc]

theorem isFinal_iff_terminal_witness :
    BatchStatus.IsFinal "completed" = true ∧ BatchStatus.IsFinal "cancelling" = false :=
  ⟨(isFinal_iff_terminal "completed").1.mpr (Or.inl rfl),
    (isFinal_iff_terminal "cancelling").2.1⟩

/-- Go `OutputExpiresAfter`. -/
structure OutputExpiresAfter where
  Seconds : Int
  Anchor : String
  deriving Repr, DecidableEq

/-- Go `CreateBatchRequest`; the metadata map is modelled as an association
list (it plays no role in validation). -/
structure CreateBatchRequest where
  InputFileID : String
  Endpoint : Endpoint
  CompletionWindow : String
  Metadata : List (String × String)
  OutputExpiresAfter : Option OutputExpiresAfter
  deriving Repr, DecidableEq

/-- The endpoints in the `validEndpoints` map of `Validate`. -/
def validEndpoints : List Endpoint :=
  [EndpointResponses, EndpointChatCompletions, EndpointEmbeddings,
   EndpointCompletions, EndpointModerations]

/-- `CreateBatchRequest.Validate`, parameterised by the success predicate of
the Go standard library's `time.ParseDuration` (stdlib code outside this
repository).  `none` models a nil error, `some msg` the returned error. -/
def Validate (parseDurationOk : String → Bool) (r : CreateBatchRequest) :
    Option String :=
  if r.CompletionWindow = "" then some "completion_window is required"
  else if parseDurationOk r.CompletionWindow = false then
    some "completion_window must be a valid duration (e.g., 24h)"
  else if r.Endpoint = "" then some "endpoint is required"
  else if r.Endpoint ∉ validEndpoints then
    some ("invalid endpoint: " ++ r.Endpoint)
  else if r.InputFileID = "" then some "input_file_id is required"
  else
    match r.OutputExpiresAfter with
    | some oea =>
      if oea.Anchor = "" then some "output_expires_after.anchor is required"
      else if oea.Seconds < 3600 ∨ 2592000 < oea.Seconds then
        some "output_expires_after.seconds must be between 3600 (1 hour) and 2592000 (30 days)"
      else none
    | none => none

/-- C9: `Validate` returns nil exactly when the completion window is a
non-empty parseable duration, the endpoint is one of the five supported
endpoints, the input file id is non-empty, and any present
`OutputExpiresAfter` has a non-empty anchor and seconds in
`[3600, 2592000]`. -/
theorem validate_nil_iff (pd : String → Bool) (r : CreateBatchRequest) :
    Validate pd r = none ↔
      (r.CompletionWindow ≠ "" ∧ pd r.CompletionWindow = true ∧
       r.Endpoint ∈ validEndpoints ∧ r.InputFileID ≠ "" ∧
       ∀ oea, r.OutputExpiresAfter = some oea →
         (oea.Anchor ≠ "" ∧ 3600 ≤ oea.Seconds ∧ oea.Seconds ≤ 2592000)) := by
  have hne : ("" : String) ∉ validEndpoints := by decide
  cases hoea : r.OutputExpiresAfter with
  | none =>
    unfold Validate
    rw [hoea]
    split_ifs with h1 h2 h3 h4 h5 <;> simp_all
  | some oea =>
    unfold Validate
    rw [hoea]
    split_ifs with h1 h2 h3 h4 h5 <;> simp_all
    split_ifs with h6 h7 <;> simp_all
    omega

theorem validate_nil_iff_witness :
    Validate (fun s => s == "24h")
      { InputFileID := "file-1", Endpoint := "/v1/chat/completions",
        CompletionWindow := "24h", Metadata := [],
        OutputExpiresAfter := none } = none :=
  (validate_nil_iff (fun s => s == "24h")
      { InputFileID := "file-1", Endpoint := "/v1/chat/completions",
        CompletionWindow := "24h", Metadata := [],
        OutputExpiresAfter := none }).mpr
    ⟨by decide, by decide, by decide, by decide, fun oea h => nomatch h⟩

end BatchGateway
